import Mathlib

/-!
Shallow embedding of the IceMAP-R river-ice classification pipeline
(src/py/icemapr.py) and of the external stage semantics its claims need.

The repository code is an orchestrator: it validates its arguments and then
drives a fixed sequence of Geomatica/PCI library stages (tex, fkuan, fme,
fuzclus, sieve, thr, model, pctread, fexport) over a temporary PCIDSK file.
The orchestration, the EASI fusion model script, and the two built-in
pseudocolor tables are translated from the source; the PCI stages themselves
are not in the repository, so the ones the claims depend on (RegionSieve,
the color-table expansion) are modelled from the spec, and the remaining
stages are carried as abstract deterministic functions.
-/

/-- Python return values that the icemapr function can produce: booleans on
most paths, and the bare integer 1 on the invalid-legend path. -/
inductive PyRet where
  | pyBool (b : Bool)
  | pyInt (n : Nat)
deriving DecidableEq

/-- Python truthiness of an icemapr return value: a bool is itself, an
integer is truthy iff it is nonzero.  main tests `not icemapr(...)`. -/
def PyRet.truthy : PyRet → Bool
  | .pyBool b => b
  | .pyInt n => decide (n ≠ 0)

/-- Character of a list at an index, with a space as the out-of-range default. -/
def getC : List Char → Nat → Char
  | [], _ => ' '
  | a :: _, 0 => a
  | _ :: l, n + 1 => getC l n

/-- Index of the last occurrence of a character, or -1 when absent,
mirroring Python's str.rfind. -/
def lastOcc (cs : List Char) (c : Char) : Int :=
  match ((List.range cs.length).filter (fun i => decide (getC cs i = c))).getLast? with
  | some i => (i : Int)
  | none => -1

/-- Extension part of Python's os.path.splitext: the suffix from the last dot
of the final path component, unless that component consists only of leading
dots up to it.  Both '/' and '\\' are treated as separators. -/
def splitextExt (p : String) : String :=
  let cs := p.data
  let sep := max (lastOcc cs '/') (lastOcc cs '\\')
  let dot := lastOcc cs '.'
  if sep < dot ∧ (List.range cs.length).any
      (fun i => decide (sep < (i : Int)) && decide ((i : Int) < dot) && decide (getC cs i ≠ '.'))
  then String.mk (cs.drop dot.toNat)
  else ""

/-- Python's str.lower on the characters of a string (character-wise ASCII
lowering, which is what the legend names involve). -/
def lowerStr (s : String) : String :=
  String.mk (s.data.map Char.toLower)

/-- Pixel value of a class-map pixel list at an index, 0 outside the list. -/
def getV : List Nat → Nat → Nat
  | [], _ => 0
  | a :: _, 0 => a
  | _ :: l, n + 1 => getV l n

/-- A discrete class raster: row-major pixel values with a given width. -/
structure ClassGrid where
  width : Nat
  data : List Nat
deriving DecidableEq

/-- Four-connectivity of two row-major pixel indices at a given width:
horizontal neighbours share a row, vertical neighbours differ by the width. -/
def adj4 (w i j : Nat) : Bool :=
  (decide (i / w = j / w) && (decide (j = i + 1) || decide (i = j + 1))) ||
  (decide (j = i + w) || decide (i = j + w))

/-- One growth step of a connected component: add every pixel adjacent to the
set that carries the same class value. -/
def compStep (g : List Nat) (w : Nat) (s : List Nat) : List Nat :=
  (List.range g.length).filter (fun j =>
    s.contains j || s.any (fun i => adj4 w i j && decide (getV g i = getV g j)))

/-- Modelled from the spec: the 4-connected same-value component of a pixel,
computed by iterating the growth step once per pixel of the raster (enough to
reach the fixpoint). -/
def component (c : ClassGrid) (i : Nat) : List Nat :=
  Nat.iterate (compStep c.data c.width) c.data.length
    (if i < c.data.length then [i] else [])

/-- Pixel count of the component containing a pixel. -/
def compSize (c : ClassGrid) (i : Nat) : Nat :=
  (component c i).length

/-- Pixels outside a pixel's component that are 4-adjacent to it: the pixels of
its neighbouring components. -/
def compNeighbors (c : ClassGrid) (i : Nat) : List Nat :=
  (List.range c.data.length).filter (fun j =>
    !(component c i).contains j && (component c i).any (fun p => adj4 c.width p j))

/-- Preference between two (area, value) candidates when choosing a merge
target: strictly larger area wins, ties go to the lower class value. -/
def betterPair (p q : Nat × Nat) : Nat × Nat :=
  if p.1 < q.1 then q
  else if q.1 = p.1 ∧ q.2 < p.2 then q
  else p

/-- Modelled from the spec: the class value of the largest component adjacent
to a pixel's component (ties broken by lowest value), or none when the
component has no neighbouring component. -/
def bestMergeValue (c : ClassGrid) (i : Nat) : Option Nat :=
  match compNeighbors c i with
  | [] => none
  | j :: js =>
      some (List.foldl betterPair (compSize c j, getV c.data j)
        (js.map (fun j2 => (compSize c j2, getV c.data j2)))).2

/-- Modelled from the spec: the value a single RegionSieve pass assigns to one
pixel.  A pixel keeps its value when the value is in the keep-set, when its
component reaches the size threshold, or when no neighbouring component
exists; otherwise it takes the best merge value. -/
def sieveVal (t : Nat) (k : List Nat) (c : ClassGrid) (i : Nat) : Nat :=
  let v := getV c.data i
  if v ∈ k then v
  else if compSize c i < t then
    match bestMergeValue c i with
    | some v2 => v2
    | none => v
  else v

/-- Modelled from the spec: the PCI `sieve` stage (RegionSieve), which is not
part of the repository.  One deterministic pass over the raster: every pixel
of a sub-threshold component whose value is outside the keep-set is reassigned
to the value of the largest adjacent neighbouring component, components being
measured on the input raster. -/
def sieveGrid (t : Nat) (k : List Nat) (c : ClassGrid) : ClassGrid :=
  ⟨c.width, (List.range c.data.length).map (sieveVal t k c)⟩

/-- Fusion rule of the final classification, translated from the EASI model
script at src/py/icemapr.py lines 349-363.  The script writes into channel 5,
a freshly created 8-bit channel of the scratch file, which is zero-filled, so
every branch that writes nothing leaves the background value 0. -/
def fusion (coarse fineA fineB : Nat) : Nat :=
  if 1 < coarse ∧ coarse < 7 then coarse + 1
  else if coarse = 1 then
    if fineA < 9 ∧ 0 < fineA then 1
    else if 9 ≤ fineA then 2
    else 0
  else if coarse = 7 then
    if 5 ≤ fineB then 9
    else if fineB < 5 ∧ 0 < fineB then 8
    else 0
  else 0

/-- Fusion rule table exactly as the specification states it, for comparison
with the translation from the source. -/
def fusionSpec (coarse fineA fineB : Nat) : Nat :=
  if 1 < coarse ∧ coarse < 7 then coarse + 1
  else if coarse = 1 then
    if 0 < fineA ∧ fineA < 9 then 1
    else if fineA ≥ 9 then 2
    else 0
  else if coarse = 7 then
    if fineB ≥ 5 then 9
    else if 0 < fineB ∧ fineB < 5 then 8
    else 0
  else 0

/-- Pointwise combination of three aligned class rasters. -/
def map3 (f : Nat → Nat → Nat → Nat) : List Nat → List Nat → List Nat → List Nat
  | a :: as, b :: bs, c :: cs => f a b c :: map3 f as bs cs
  | _, _, _ => []

/-- The PCI `thr` stage on a class raster: the boolean mask of pixels whose
class value lies in the inclusive range, complement mode off. -/
def thrMask (m : List Nat) (lo hi : Nat) : List Bool :=
  m.map (fun v => decide (lo ≤ v) && decide (v ≤ hi))

/-- The EASI crop model at src/py/icemapr.py lines 211-213: the river-mask bit
is cleared wherever the copied radar channel is zero. -/
def cropMask (sar : List ℚ) (mask : List Bool) : List Bool :=
  List.zipWith (fun s m => if s = 0 then false else m) sar mask

/-- One line of a pseudocolor range table: an inclusive value range and the
RGB triple assigned to it. -/
structure PCTEntry where
  lo : Nat
  hi : Nat
  r : Nat
  g : Nat
  b : Nat
deriving DecidableEq

/-- The freeze pseudocolor table written by createPCT, translated line by line
from the text literal at src/py/icemapr.py lines 471-481. -/
def freezePCT : List PCTEntry :=
  [⟨0, 0, 0, 0, 0⟩,
   ⟨1, 2, 0, 0, 102⟩,
   ⟨3, 3, 51, 102, 255⟩,
   ⟨4, 5, 204, 255, 255⟩,
   ⟨6, 7, 255, 204, 255⟩,
   ⟨8, 9, 153, 51, 102⟩,
   ⟨10, 255, 255, 255, 255⟩]

/-- The thaw pseudocolor table written by createPCT, translated line by line
from the text literal at src/py/icemapr.py lines 456-466. -/
def thawPCT : List PCTEntry :=
  [⟨0, 0, 0, 0, 0⟩,
   ⟨1, 1, 0, 0, 153⟩,
   ⟨2, 2, 51, 102, 255⟩,
   ⟨3, 4, 204, 204, 255⟩,
   ⟨5, 7, 207, 109, 215⟩,
   ⟨8, 9, 142, 0, 142⟩,
   ⟨10, 255, 255, 255, 255⟩]

/-- Range table written by createPCT for a built-in legend name: the thaw
table when the lowered name is thaw, otherwise the freeze table (the source
falls back to freeze with a warning for any other name). -/
def createPCT (season : String) : List PCTEntry :=
  if lowerStr season = "thaw" then thawPCT else freezePCT

/-- Modelled from the spec: the PCI `pctread` expansion of a sparse range
table into the full 256-entry palette, which is not part of the repository.
Each index takes the RGB of the last entry whose range starts at or below it
(covering both declared ranges and the nearest-preceding-range fill policy),
and black when no range precedes. -/
def expandPCT (t : List PCTEntry) : List (Nat × Nat × Nat) :=
  (List.range 256).map (fun i =>
    match (t.filter (fun en => decide (en.lo ≤ i))).getLast? with
    | some en => (en.r, en.g, en.b)
    | none => (0, 0, 0))

/-- One PCI stage call of the pipeline, with the parameters the source passes:
channel numbers, windows, cluster counts, iteration caps, thresholds and
segment numbers, as written at src/py/icemapr.py lines 151-401. -/
inductive Stage where
  | cim
  | iii (dbic dboc : Nat)
  | poly2bit (layer : Int) (outSeg : Nat)
  | modelCrop
  | tex (dbic : Nat) (texture : List Nat) (dboc : List Nat) (flsz : List Nat)
  | fkuan (dbic dboc : Nat) (flsz : List Nat) (nlook : ℚ)
  | mcd (dboc : Nat)
  | fme (dbic dboc : Nat) (flsz : List Nat) (maskSeg : Nat)
  | fuzclus (dbic : List Nat) (dboc : Nat) (maskSeg : Nat) (numclus maxiter : Nat) (movethrs : ℚ)
  | sieve (dbic dboc : Nat) (sthresh : Nat) (keepvalu : List Nat) (connect : Nat)
  | thr (dbic : Nat) (tval : List Nat) (outSeg : Nat)
  | modelFusion
  | pctread (tfile : String)
  | fexport (dbic : Nat) (ftype : String)
deriving DecidableEq

/-- Recognizer for fuzzy-clustering stage calls. -/
def isFuzclusStage : Stage → Bool
  | .fuzclus _ _ _ _ _ _ => true
  | _ => false

/-- Recognizer for region-sieve stage calls. -/
def isSieveStage : Stage → Bool
  | .sieve _ _ _ _ _ => true
  | _ => false

/-- Recognizer for class-threshold stage calls. -/
def isThrStage : Stage → Bool
  | .thr _ _ _ => true
  | _ => false

/-- The straight-line sequence of PCI stage calls of a complete run,
translated from src/py/icemapr.py lines 151-401.  Channel numbers follow the
source constants (sar 7, texture 8-10, fkuan 11, fme 12, clusterings 1, 3, 4,
sieves 2 and 6, fusion 5); the segment counter yields river mask 2, class-1
mask 3, class-7 mask 4. -/
def pipelineStages (infilec : Nat) (seg : Int) (pct2use : String) : List Stage :=
  [.cim,
   .iii infilec 7,
   .poly2bit seg 2,
   .modelCrop,
   .tex 7 [2, 4, 7] [8, 9, 10] [7, 7],
   .fkuan 7 11 [7, 7] 1,
   .mcd 11,
   .fme 11 12 [3, 3] 2,
   .mcd 12,
   .fuzclus [9] 1 2 7 20 0.01,
   .sieve 1 2 12 [0] 4,
   .thr 2 [1, 1] 3,
   .fuzclus [8, 9, 10] 3 3 20 20 0.01,
   .thr 2 [7, 7] 4,
   .fuzclus [12] 4 4 8 20 0.01,
   .modelFusion,
   .sieve 5 6 12 [0] 4,
   .pctread pct2use,
   .fexport 6 "TIF"]

/-- Modelled from the spec: the semantics of the external PCI raster stages
that the repository only calls (texture extraction, Kuan speckle filter,
masked median filter, fuzzy k-means clustering).  Per the spec these are
deterministic functions of their documented inputs — in particular the
automatic cluster seeding is a fixed deterministic strategy — so a run is
parameterized by one such bundle of functions. -/
structure Sem where
  texBand : Nat → List ℚ → List ℚ
  fkuanF : List ℚ → List ℚ
  fmeF : List ℚ → List Bool → List ℚ
  fuzclusF : List (List ℚ) → List Bool → Nat → Nat → ℚ → List Nat

/-- The arguments of the icemapr function (file names stand for paths). -/
structure Args where
  infile : String
  infilec : Nat
  inmask : String
  inmasks : Int
  inpct : String
  outfile : String
deriving DecidableEq

/-- Copy of the arguments with the mask segment number replaced. -/
def setSeg (a : Args) (s : Int) : Args :=
  ⟨a.infile, a.infilec, a.inmask, s, a.inpct, a.outfile⟩

/-- The parts of the filesystem and run environment the function observes:
which of the named files exist, whether some PCI stage raises mid-pipeline,
and the run-specific scratch names (the datetime-derived temporary .pix name
and the mkstemp name for the generated PCT text). -/
structure Env where
  infileExists : Bool
  inmaskExists : Bool
  pctFileExists : Bool
  outfileExists : Bool
  stageRaises : Bool
  tmpPixName : String
  pctTmpName : String
deriving DecidableEq

/-- The raster-world inputs of a run: the selected radar channel, the
rasterized river mask aligned with it, and, when the legend is a user file,
the range table that file contains. -/
structure Inputs where
  width : Nat
  sar : List ℚ
  riverMask : List Bool
  userPCT : List PCTEntry

/-- Everything observable about one invocation of icemapr: the Python return
value, whether the shapefile segment warning was logged, the mask layer
passed to poly2bit, the executed stage calls, the scratch files created and
the ones still present at the end, whether the output path was written, and
the exported class raster and expanded palette. -/
structure RunOut where
  ret : PyRet
  segWarning : Bool
  maskSegUsed : Option Int
  stages : List Stage
  scratchCreated : List String
  scratchLeft : List String
  wroteOutput : Bool
  output : Option ClassGrid
  outputPCT : Option (List (Nat × Nat × Nat))

/-- The classified raster the pipeline computes, translated from the stage
sequence of src/py/icemapr.py: crop the mask by the copied channel, extract
texture bands, speckle-filter and median-smooth the amplitude, cluster one
texture band at k=7 inside the river mask, sieve, re-cluster the class-1 and
class-7 submasks at k=20 and k=8, fuse with the rule table, and sieve again. -/
def pipelineData (sem : Sem) (inp : Inputs) : ClassGrid :=
  let mask := cropMask inp.sar inp.riverMask
  let t1 := sem.texBand 0 inp.sar
  let t2 := sem.texBand 1 inp.sar
  let t3 := sem.texBand 2 inp.sar
  let fk := sem.fkuanF inp.sar
  let fm := sem.fmeF fk mask
  let coarse := sem.fuzclusF [t2] mask 7 20 0.01
  let sieved := (sieveGrid 12 [0] ⟨inp.width, coarse⟩).data
  let m1 := thrMask sieved 1 1
  let fa := sem.fuzclusF [t1, t2, t3] m1 20 20 0.01
  let m7 := thrMask sieved 7 7
  let fb := sem.fuzclusF [fm] m7 8 20 0.01
  let fused := map3 fusion sieved fa fb
  sieveGrid 12 [0] ⟨inp.width, fused⟩

/-- The run from the output-path check onward (src/py/icemapr.py lines
134-425): refuse an existing output; otherwise create the scratch .pix and
run the stages; on a stage exception return False with no cleanup; on
success export, then remove the scratch .pix and — only when the legend
argument is exactly the lowercase string freeze or thaw — the generated PCT
text. -/
def runPipelinePhase (sem : Sem) (infilec : Nat) (inpct : String) (e : Env) (inp : Inputs)
    (seg : Int) (pct2use : String) (pctScratch : List String) (table : List PCTEntry) : RunOut :=
  if e.outfileExists = true then
    ⟨.pyBool false, false, none, [], pctScratch, pctScratch, false, none, none⟩
  else if e.stageRaises = true then
    ⟨.pyBool false, false, some seg, [], pctScratch ++ [e.tmpPixName],
      pctScratch ++ [e.tmpPixName], false, none, none⟩
  else
    ⟨.pyBool true, false, some seg, pipelineStages infilec seg pct2use,
      pctScratch ++ [e.tmpPixName],
      if inpct = "freeze" ∨ inpct = "thaw" then [] else pctScratch,
      true, some (pipelineData sem inp), some (expandPCT table)⟩

/-- The legend-selection step (src/py/icemapr.py lines 122-131): a built-in
name (case-insensitive) generates the PCT text as a scratch file; a path
ending in .txt must exist and is used directly; anything else logs an error
and returns the integer 1. -/
def legendPhase (sem : Sem) (infilec : Nat) (inpct : String) (e : Env) (inp : Inputs)
    (seg : Int) : RunOut :=
  if lowerStr inpct = "freeze" ∨ lowerStr inpct = "thaw" then
    runPipelinePhase sem infilec inpct e inp seg e.pctTmpName [e.pctTmpName] (createPCT inpct)
  else if splitextExt inpct = ".txt" then
    if e.pctFileExists = true then
      runPipelinePhase sem infilec inpct e inp seg inpct [] inp.userPCT
    else ⟨.pyBool false, false, none, [], [], [], false, none, none⟩
  else ⟨.pyInt 1, false, none, [], [], [], false, none, none⟩

/-- The mask segment number actually used (src/py/icemapr.py lines 116-119):
a shapefile mask with any segment other than 1 is corrected to 1. -/
def maskSegFixed (a : Args) : Int :=
  if splitextExt a.inmask = ".shp" ∧ a.inmasks ≠ 1 then 1 else a.inmasks

/-- Attach the shapefile-segment warning flag to a run outcome. -/
def withWarn (r : RunOut) (b : Bool) : RunOut :=
  ⟨r.ret, b, r.maskSegUsed, r.stages, r.scratchCreated, r.scratchLeft,
    r.wroteOutput, r.output, r.outputPCT⟩

/-- The icemapr function (src/py/icemapr.py lines 62-425): require both input
files to exist; force the mask segment to 1 with a warning for a shapefile
mask given any other segment; then resolve the legend and run the pipeline. -/
def icemapr (sem : Sem) (a : Args) (e : Env) (inp : Inputs) : RunOut :=
  if e.infileExists = true ∧ e.inmaskExists = true then
    withWarn (legendPhase sem a.infilec a.inpct e inp (maskSegFixed a))
      (decide (splitextExt a.inmask = ".shp" ∧ a.inmasks ≠ 1))
  else ⟨.pyBool false, false, none, [], [], [], false, none, none⟩

/-- The exit code of main (src/py/icemapr.py lines 489-539): main returns 1
exactly when the value icemapr returned is falsy, and 0 otherwise. -/
def mainExitCode (sem : Sem) (a : Args) (e : Env) (inp : Inputs) : Nat :=
  if (icemapr sem a e inp).ret.truthy = true then 0 else 1

/-- A trivial concrete stage-semantics bundle (every cluster map is all
background) used to instantiate witnesses on small inputs. -/
def semZero : Sem :=
  ⟨fun _ s => s, fun s => s, fun s _ => s, fun _ m _ _ _ => m.map (fun _ => 0)⟩

/-! Helper lemmas about the embedded definitions. -/

/-- Attaching the warning flag leaves every other field of a run unchanged and
sets the warning field. -/
@[simp] theorem withWarn_fields (r : RunOut) (b : Bool) :
    (withWarn r b).ret = r.ret ∧ (withWarn r b).segWarning = b ∧
    (withWarn r b).maskSegUsed = r.maskSegUsed ∧ (withWarn r b).stages = r.stages ∧
    (withWarn r b).scratchCreated = r.scratchCreated ∧
    (withWarn r b).scratchLeft = r.scratchLeft ∧
    (withWarn r b).wroteOutput = r.wroteOutput ∧ (withWarn r b).output = r.output ∧
    (withWarn r b).outputPCT = r.outputPCT :=
  ⟨rfl, rfl, rfl, rfl, rfl, rfl, rfl, rfl, rfl⟩

/-- Fusion never produces a class above 9, whatever the three inputs are. -/
theorem fusion_le_nine (c a b : Nat) : fusion c a b ≤ 9 := by
  unfold fusion
  split_ifs <;> omega

/-- Taking a pixel at an in-range index yields a member of the pixel list. -/
theorem getV_mem : ∀ (l : List Nat) (i : Nat), i < l.length → getV l i ∈ l := by
  intro l
  induction l with
  | nil => intro i h; simp at h
  | cons a t ih =>
    intro i h
    cases i with
    | zero => simp [getV]
    | succ n =>
      simp only [getV, List.mem_cons]
      exact Or.inr (ih n (by simpa using h))

/-- The preference function always returns one of its two candidates. -/
theorem betterPair_cases (p q : Nat × Nat) : betterPair p q = p ∨ betterPair p q = q := by
  unfold betterPair
  split_ifs <;> simp

/-- Folding the preference function over candidates returns one of them. -/
theorem foldl_betterPair_mem (l : List (Nat × Nat)) :
    ∀ p, List.foldl betterPair p l ∈ p :: l := by
  induction l with
  | nil => intro p; simp
  | cons q t ih =>
    intro p
    simp only [List.foldl_cons]
    have h := ih (betterPair p q)
    rcases betterPair_cases p q with h2 | h2 <;>
      rw [h2] at h ⊢ <;> simp only [List.mem_cons] at h ⊢ <;> tauto

/-- A merge value produced by bestMergeValue is the value of some pixel of the
raster. -/
theorem bestMergeValue_mem (c : ClassGrid) (i v : Nat)
    (h : bestMergeValue c i = some v) : ∃ j, j < c.data.length ∧ v = getV c.data j := by
  unfold bestMergeValue at h
  split at h
  · exact absurd h (by simp)
  · rename_i j js hn
    have hv : v = (List.foldl betterPair (compSize c j, getV c.data j)
        (js.map (fun j2 => (compSize c j2, getV c.data j2)))).2 := by
      injection h with h
      exact h.symm
    have hfold := foldl_betterPair_mem
      (js.map (fun j2 => (compSize c j2, getV c.data j2))) (compSize c j, getV c.data j)
    have hmem : List.foldl betterPair (compSize c j, getV c.data j)
        (js.map (fun j2 => (compSize c j2, getV c.data j2)))
        ∈ (j :: js).map (fun j2 => (compSize c j2, getV c.data j2)) := by
      simpa using hfold
    rcases List.mem_map.mp hmem with ⟨j2, hj2, hpair⟩
    have hj2n : j2 ∈ compNeighbors c i := hn ▸ hj2
    have hj2r : j2 ∈ List.range c.data.length := List.mem_of_mem_filter hj2n
    refine ⟨j2, List.mem_range.mp hj2r, ?_⟩
    rw [hv, ← hpair]

/-- Every pixel value of a sieved raster already occurs in the input raster. -/
theorem sieveGrid_mem (t : Nat) (k : List Nat) (c : ClassGrid) (v : Nat)
    (h : v ∈ (sieveGrid t k c).data) : v ∈ c.data := by
  unfold sieveGrid at h
  simp only [List.mem_map, List.mem_range] at h
  rcases h with ⟨i, hi, hv⟩
  unfold sieveVal at hv
  dsimp only at hv
  split_ifs at hv
  · exact hv ▸ getV_mem c.data i hi
  · split at hv
    · rename_i v2 hb
      rcases bestMergeValue_mem c i v2 hb with ⟨j, hj, hvj⟩
      rw [← hv, hvj]
      exact getV_mem c.data j hj
    · exact hv ▸ getV_mem c.data i hi
  · exact hv ▸ getV_mem c.data i hi

/-- Every value produced by the pointwise three-raster combination is a value
of the combining function. -/
theorem map3_mem {f : Nat → Nat → Nat → Nat} :
    ∀ (as bs cs : List Nat) (v : Nat), v ∈ map3 f as bs cs → ∃ a b c, v = f a b c := by
  intro as
  induction as with
  | nil => intro bs cs v h; simp [map3] at h
  | cons a as ih =>
    intro bs cs v h
    cases bs with
    | nil => simp [map3] at h
    | cons b bs =>
      cases cs with
      | nil => simp [map3] at h
      | cons c cs =>
        simp only [map3, List.mem_cons] at h
        rcases h with h | h
        · exact ⟨a, b, c, h⟩
        · exact ih bs cs v h

/-- Every pixel of the raster the pipeline computes is a class at most 9. -/
theorem pipelineData_le_nine (sem : Sem) (inp : Inputs) (v : Nat)
    (h : v ∈ (pipelineData sem inp).data) : v ≤ 9 := by
  unfold pipelineData at h
  have h2 := sieveGrid_mem _ _ _ _ h
  rcases map3_mem _ _ _ _ h2 with ⟨a, b, c, hv⟩
  exact hv ▸ fusion_le_nine a b c

/-- The exported raster of a run, when one exists, is the raster the pipeline
computes on the run's inputs. -/
theorem icemapr_output_cases (sem : Sem) (a : Args) (e : Env) (inp : Inputs) :
    (icemapr sem a e inp).output = none ∨
    (icemapr sem a e inp).output = some (pipelineData sem inp) := by
  unfold icemapr legendPhase runPipelinePhase
  split_ifs <;> simp

/-- Indexing into a map over a range of indices gives the mapped index. -/
theorem getV_map_range (n : Nat) (f : Nat → Nat) (i : Nat) (h : i < n) :
    getV ((List.range n).map f) i = f i := by
  induction n generalizing f i with
  | zero => omega
  | succ m ih =>
    rw [List.range_succ_eq_map]
    cases i with
    | zero => rfl
    | succ j =>
      simp only [List.map_cons, List.map_map, getV]
      have := ih (fun x => f (x + 1)) j (by omega)
      simpa [Function.comp] using this

/-! Theorems settling the claims. -/

/-- C1: for every pixel the fused final class equals the exact rule table over
(coarse, fineA, fineB): strictly interior coarse classes shift up by one,
coarse 1 refines through fineA into classes 1 or 2, coarse 7 refines through
fineB into classes 8 or 9, and everything else — coarse 0, coarse outside the
domain, and undocumented fine values — is background 0. -/
theorem fusion_matches_rule_table (c a b : Nat) : fusion c a b = fusionSpec c a b := by
  unfold fusion fusionSpec
  split_ifs <;> omega

/-- C2: whenever a run exports a final class map (the fusion output after the
second RegionSieve pass), every pixel of it is a class value at most 9, so the
value domain is contained in 0..9. -/
theorem final_map_within_class_domain (sem : Sem) (a : Args) (e : Env) (inp : Inputs)
    (m : ClassGrid) (hm : (icemapr sem a e inp).output = some m) :
    ∀ v ∈ m.data, v ≤ 9 := by
  intro v hv
  rcases icemapr_output_cases sem a e inp with h | h
  · rw [hm] at h; exact absurd h (by simp)
  · rw [hm] at h
    have : m = pipelineData sem inp := by injection h
    exact pipelineData_le_nine sem inp v (this ▸ hv)

/-- Witness for C2: a successful one-pixel run exports the map with the single
background pixel, and the theorem bounds its value. -/
theorem final_map_within_class_domain_witness :
    (icemapr semZero ⟨"in.pix", 1, "m.shp", 1, "freeze", "o.tif"⟩
      ⟨true, true, true, false, false, "t.pix", "p.txt"⟩ ⟨1, [5], [true], []⟩).output
      = some ⟨1, [0]⟩ ∧
    ∀ v ∈ (⟨1, [0]⟩ : ClassGrid).data, v ≤ 9 :=
  ⟨by decide,
    final_map_within_class_domain semZero ⟨"in.pix", 1, "m.shp", 1, "freeze", "o.tif"⟩
      ⟨true, true, true, false, false, "t.pix", "p.txt"⟩ ⟨1, [5], [true], []⟩
      ⟨1, [0]⟩ (by decide)⟩

/-- C8, counterexample: RegionSieve does not guarantee that no sub-threshold
component with value outside the keep-set remains.  On the 2-wide raster whose
two pixels both carry class 1, the whole raster is one 2-pixel component with
no neighbouring component to merge into, so the pass (threshold 12, keep-set
containing only 0) leaves it unchanged and a 2-pixel component of class 1
survives. -/
theorem sieve_small_component_survives :
    (sieveGrid 12 [0] ⟨2, [1, 1]⟩).data = [1, 1] ∧
    compSize (sieveGrid 12 [0] ⟨2, [1, 1]⟩) 0 = 2 ∧
    getV (sieveGrid 12 [0] ⟨2, [1, 1]⟩).data 0 ∉ ([0] : List Nat) := by
  refine ⟨by decide, by decide, by decide⟩

/-- C8, amended: a RegionSieve pass conserves the total pixel count, and every
pixel of a sub-threshold component whose value is outside the keep-set and
which has at least one adjacent neighbouring component is reassigned the value
of its largest adjacent component (ties to the lowest value); sub-threshold
components without such a neighbour survive the pass. -/
theorem sieve_pass_properties (t : Nat) (k : List Nat) (c : ClassGrid) :
    (sieveGrid t k c).data.length = c.data.length ∧
    (∀ i v2, i < c.data.length → getV c.data i ∉ k → compSize c i < t →
      bestMergeValue c i = some v2 → getV (sieveGrid t k c).data i = v2) := by
  constructor
  · simp [sieveGrid]
  · intro i v2 hi hk hs hb
    unfold sieveGrid
    rw [getV_map_range _ _ _ hi]
    unfold sieveVal
    simp [hk, hs, hb]

/-- Witness for C8's amended theorem: on the raster with pixels of class 1 and
class 2 side by side, the class-1 pixel is merged into its only neighbouring
component and takes the value 2. -/
theorem sieve_pass_properties_witness :
    0 < (⟨2, [1, 2]⟩ : ClassGrid).data.length ∧
    getV (⟨2, [1, 2]⟩ : ClassGrid).data 0 ∉ ([0] : List Nat) ∧
    compSize ⟨2, [1, 2]⟩ 0 < 12 ∧
    bestMergeValue ⟨2, [1, 2]⟩ 0 = some 2 ∧
    getV (sieveGrid 12 [0] ⟨2, [1, 2]⟩).data 0 = 2 :=
  ⟨by decide, by decide, by decide, by decide,
    (sieve_pass_properties 12 [0] ⟨2, [1, 2]⟩).2 0 2 (by decide) (by decide) (by decide) (by decide)⟩

/-- C9, counterexample: neither built-in legend is a 10-entry range table; the
createPCT text literals each have exactly 7 range lines. -/
theorem builtin_legends_not_ten_entries :
    ¬ (freezePCT.length = 10 ∧ thawPCT.length = 10) := by
  decide

/-- C9, amended: each built-in legend is a 7-entry range table with the fixed
ranges and RGB triples of the createPCT literals — freeze covers 0; 1-2; 3;
4-5; 6-7; 8-9; 10-255 and thaw covers 0; 1; 2; 3-4; 5-7; 8-9; 10-255, ten
final classes plus a catch-all — and each expands to exactly 256 palette
entries. -/
theorem builtin_legends_tables :
    freezePCT.map (fun en => (en.lo, en.hi)) =
      [(0, 0), (1, 2), (3, 3), (4, 5), (6, 7), (8, 9), (10, 255)] ∧
    thawPCT.map (fun en => (en.lo, en.hi)) =
      [(0, 0), (1, 1), (2, 2), (3, 4), (5, 7), (8, 9), (10, 255)] ∧
    freezePCT.map (fun en => (en.r, en.g, en.b)) =
      [(0, 0, 0), (0, 0, 102), (51, 102, 255), (204, 255, 255),
       (255, 204, 255), (153, 51, 102), (255, 255, 255)] ∧
    thawPCT.map (fun en => (en.r, en.g, en.b)) =
      [(0, 0, 0), (0, 0, 153), (51, 102, 255), (204, 204, 255),
       (207, 109, 215), (142, 0, 142), (255, 255, 255)] ∧
    freezePCT.length = 7 ∧ thawPCT.length = 7 ∧
    (expandPCT freezePCT).length = 256 ∧ (expandPCT thawPCT).length = 256 := by
  refine ⟨rfl, rfl, rfl, rfl, rfl, rfl, ?_, ?_⟩ <;> simp [expandPCT]

/-- C3: the invalid-legend path is a code bug.  With both input files present,
a legend selector that is neither a built-in name nor a .txt path makes
icemapr return the bare integer 1 before any pipeline stage runs; 1 is truthy
in Python, so main's `not icemapr(...)` test sees a success and main exits
with code 0 instead of reporting a failure. -/
theorem invalid_legend_truthy_exit_zero :
    (icemapr semZero ⟨"in.pix", 1, "m.shp", 1, "legend.json", "o.tif"⟩
      ⟨true, true, true, false, false, "t.pix", "p.txt"⟩ ⟨0, [], [], []⟩).ret = .pyInt 1 ∧
    (icemapr semZero ⟨"in.pix", 1, "m.shp", 1, "legend.json", "o.tif"⟩
      ⟨true, true, true, false, false, "t.pix", "p.txt"⟩ ⟨0, [], [], []⟩).stages = [] ∧
    PyRet.truthy (.pyInt 1) = true ∧
    mainExitCode semZero ⟨"in.pix", 1, "m.shp", 1, "legend.json", "o.tif"⟩
      ⟨true, true, true, false, false, "t.pix", "p.txt"⟩ ⟨0, [], [], []⟩ = 0 :=
  ⟨by decide, by decide, by decide, by decide⟩

/-- C4, counterexample: a run that fails validation does not discard its
scratch products.  With the legend name freeze and an already existing output
file, the generated PCT text file has been created when the run returns False,
and it is still present at the end of the run. -/
theorem failed_run_keeps_scratch :
    (icemapr semZero ⟨"in.pix", 1, "m.shp", 1, "freeze", "o.tif"⟩
      ⟨true, true, true, true, false, "t.pix", "p.txt"⟩ ⟨0, [], [], []⟩).ret = .pyBool false ∧
    (icemapr semZero ⟨"in.pix", 1, "m.shp", 1, "freeze", "o.tif"⟩
      ⟨true, true, true, true, false, "t.pix", "p.txt"⟩ ⟨0, [], [], []⟩).scratchCreated = ["p.txt"] ∧
    (icemapr semZero ⟨"in.pix", 1, "m.shp", 1, "freeze", "o.tif"⟩
      ⟨true, true, true, true, false, "t.pix", "p.txt"⟩ ⟨0, [], [], []⟩).scratchLeft = ["p.txt"] :=
  ⟨by decide, by decide, by decide⟩

/-- C4, amended: scratch products are discarded only at the end of a
successful run — the temporary .pix file is always removed then, and the
generated PCT text file is removed exactly when the legend argument is the
lowercase string freeze or thaw — while every run that does not return the
success value True (validation failures after legend resolution and
mid-pipeline exceptions alike) performs no cleanup at all: whatever scratch
it created is still present at the end. -/
theorem cleanup_only_on_success (sem : Sem) (a : Args) (e : Env) (inp : Inputs) :
    ((icemapr sem a e inp).ret = .pyBool true →
      (icemapr sem a e inp).scratchLeft =
        if lowerStr a.inpct = "freeze" ∨ lowerStr a.inpct = "thaw" then
          (if a.inpct = "freeze" ∨ a.inpct = "thaw" then ([] : List String) else [e.pctTmpName])
        else []) ∧
    ((icemapr sem a e inp).ret ≠ .pyBool true →
      (icemapr sem a e inp).scratchLeft = (icemapr sem a e inp).scratchCreated) := by
  unfold icemapr legendPhase runPipelinePhase
  split_ifs <;> constructor <;> intro h <;> simp_all

/-- Witness for C4's amended theorem, exercising both halves: a successful
run with the lowercase built-in legend name ends with no scratch file left,
and the same invocation with a mid-pipeline stage exception fails and leaves
both the generated PCT text and the temporary .pix file behind. -/
theorem cleanup_only_on_success_witness :
    (icemapr semZero ⟨"in.pix", 1, "m.shp", 1, "freeze", "o.tif"⟩
      ⟨true, true, true, false, false, "t.pix", "p.txt"⟩ ⟨0, [], [], []⟩).ret = .pyBool true ∧
    (icemapr semZero ⟨"in.pix", 1, "m.shp", 1, "freeze", "o.tif"⟩
      ⟨true, true, true, false, false, "t.pix", "p.txt"⟩ ⟨0, [], [], []⟩).scratchLeft =
      (if lowerStr "freeze" = "freeze" ∨ lowerStr "freeze" = "thaw" then
        (if "freeze" = "freeze" ∨ "freeze" = "thaw" then ([] : List String) else ["p.txt"])
      else []) ∧
    (icemapr semZero ⟨"in.pix", 1, "m.shp", 1, "freeze", "o.tif"⟩
      ⟨true, true, true, false, true, "t.pix", "p.txt"⟩ ⟨0, [], [], []⟩).ret ≠ .pyBool true ∧
    (icemapr semZero ⟨"in.pix", 1, "m.shp", 1, "freeze", "o.tif"⟩
      ⟨true, true, true, false, true, "t.pix", "p.txt"⟩ ⟨0, [], [], []⟩).scratchCreated
      = ["p.txt", "t.pix"] ∧
    (icemapr semZero ⟨"in.pix", 1, "m.shp", 1, "freeze", "o.tif"⟩
      ⟨true, true, true, false, true, "t.pix", "p.txt"⟩ ⟨0, [], [], []⟩).scratchLeft =
      (icemapr semZero ⟨"in.pix", 1, "m.shp", 1, "freeze", "o.tif"⟩
        ⟨true, true, true, false, true, "t.pix", "p.txt"⟩ ⟨0, [], [], []⟩).scratchCreated :=
  ⟨by decide,
    (cleanup_only_on_success semZero ⟨"in.pix", 1, "m.shp", 1, "freeze", "o.tif"⟩
      ⟨true, true, true, false, false, "t.pix", "p.txt"⟩ ⟨0, [], [], []⟩).1 (by decide),
    by decide, by decide,
    (cleanup_only_on_success semZero ⟨"in.pix", 1, "m.shp", 1, "freeze", "o.tif"⟩
      ⟨true, true, true, false, true, "t.pix", "p.txt"⟩ ⟨0, [], [], []⟩).2 (by decide)⟩

/-- C5: when the output path already exists, icemapr never returns the success
value True, no pipeline stage is executed, and the output path is not written,
so the pre-existing file is left unchanged. -/
theorem existing_output_refused (sem : Sem) (a : Args) (e : Env) (inp : Inputs)
    (h : e.outfileExists = true) :
    (icemapr sem a e inp).ret ≠ .pyBool true ∧
    (icemapr sem a e inp).stages = [] ∧
    (icemapr sem a e inp).wroteOutput = false ∧
    (icemapr sem a e inp).output = none := by
  unfold icemapr legendPhase runPipelinePhase
  split_ifs <;> simp_all

/-- Witness for C5: a concrete invocation against an existing output file. -/
theorem existing_output_refused_witness :
    (⟨true, true, true, true, false, "t.pix", "p.txt"⟩ : Env).outfileExists = true ∧
    (icemapr semZero ⟨"in.pix", 1, "m.shp", 1, "freeze", "o.tif"⟩
      ⟨true, true, true, true, false, "t.pix", "p.txt"⟩ ⟨0, [], [], []⟩).ret ≠ .pyBool true :=
  ⟨rfl,
    (existing_output_refused semZero ⟨"in.pix", 1, "m.shp", 1, "freeze", "o.tif"⟩
      ⟨true, true, true, true, false, "t.pix", "p.txt"⟩ ⟨0, [], [], []⟩ rfl).1⟩

/-- C6: the pipeline invokes the fuzzy clusterer exactly three times, in
order: k=7 on the single texture band in channel 9 masked by the river-mask
segment 2 into the coarse map, k=20 on all three texture bands 8-10 masked by
the class-1 submask segment 3, and k=8 on the median-smoothed Kuan-filtered
amplitude in channel 12 masked by the class-7 submask segment 4; every
invocation caps iterations at 20 with movement threshold 0.01, and the two
submasks are thresholded (ranges [1,1] and [7,7]) from channel 2, the sieved
coarse map. -/
theorem fuzclus_invocations (infilec : Nat) (seg : Int) (pct2use : String) :
    (pipelineStages infilec seg pct2use).filter isFuzclusStage =
      [.fuzclus [9] 1 2 7 20 0.01,
       .fuzclus [8, 9, 10] 3 3 20 20 0.01,
       .fuzclus [12] 4 4 8 20 0.01] ∧
    (pipelineStages infilec seg pct2use).filter isThrStage =
      [.thr 2 [1, 1] 3, .thr 2 [7, 7] 4] ∧
    (pipelineStages infilec seg pct2use).filter isSieveStage =
      [.sieve 1 2 12 [0] 4, .sieve 5 6 12 [0] 4] ∧
    Stage.poly2bit seg 2 ∈ pipelineStages infilec seg pct2use ∧
    Stage.tex 7 [2, 4, 7] [8, 9, 10] [7, 7] ∈ pipelineStages infilec seg pct2use ∧
    Stage.fkuan 7 11 [7, 7] 1 ∈ pipelineStages infilec seg pct2use ∧
    Stage.fme 11 12 [3, 3] 2 ∈ pipelineStages infilec seg pct2use := by
  refine ⟨rfl, rfl, rfl, ?_, ?_, ?_, ?_⟩ <;> simp [pipelineStages]

/-- C7: two runs on identical raster, mask and legend inputs produce identical
results — the exported class raster, the expanded palette, the return value
and whether the output was written do not depend on the run-specific
environment (the datetime-derived temporary .pix name and the mkstemp PCT
name), the external stages being deterministic functions of their inputs. -/
theorem icemapr_deterministic (sem : Sem) (a : Args) (inp : Inputs)
    (fi im pf of sr : Bool) (t1 p1 t2 p2 : String) :
    (icemapr sem a ⟨fi, im, pf, of, sr, t1, p1⟩ inp).output =
      (icemapr sem a ⟨fi, im, pf, of, sr, t2, p2⟩ inp).output ∧
    (icemapr sem a ⟨fi, im, pf, of, sr, t1, p1⟩ inp).outputPCT =
      (icemapr sem a ⟨fi, im, pf, of, sr, t2, p2⟩ inp).outputPCT ∧
    (icemapr sem a ⟨fi, im, pf, of, sr, t1, p1⟩ inp).ret =
      (icemapr sem a ⟨fi, im, pf, of, sr, t2, p2⟩ inp).ret ∧
    (icemapr sem a ⟨fi, im, pf, of, sr, t1, p1⟩ inp).wroteOutput =
      (icemapr sem a ⟨fi, im, pf, of, sr, t2, p2⟩ inp).wroteOutput := by
  simp only [icemapr, legendPhase, runPipelinePhase]
  split_ifs <;> simp_all

/-- A pipeline run records either no mask layer or exactly the layer it was
given. -/
theorem legendPhase_maskSegUsed (sem : Sem) (fc : Nat) (p : String) (e : Env)
    (inp : Inputs) (seg : Int) :
    (legendPhase sem fc p e inp seg).maskSegUsed = none ∨
    (legendPhase sem fc p e inp seg).maskSegUsed = some seg := by
  unfold legendPhase runPipelinePhase
  split_ifs <;> simp

/-- C10: a shapefile mask with a segment number other than 1 does not fail
the run — the corrective warning is set, the run behaves exactly as the same
invocation with segment 1 (same return value, stages, scratch handling and
output), and any mask layer actually used is 1. -/
theorem shp_segment_autocorrected (sem : Sem) (a : Args) (e : Env) (inp : Inputs)
    (hshp : splitextExt a.inmask = ".shp") (hseg : a.inmasks ≠ 1)
    (hfi : e.infileExists = true) (him : e.inmaskExists = true) :
    (icemapr sem a e inp).segWarning = true ∧
    (icemapr sem a e inp).ret = (icemapr sem (setSeg a 1) e inp).ret ∧
    (icemapr sem a e inp).stages = (icemapr sem (setSeg a 1) e inp).stages ∧
    (icemapr sem a e inp).scratchLeft = (icemapr sem (setSeg a 1) e inp).scratchLeft ∧
    (icemapr sem a e inp).output = (icemapr sem (setSeg a 1) e inp).output ∧
    ∀ s, (icemapr sem a e inp).maskSegUsed = some s → s = 1 := by
  have hfix : maskSegFixed a = 1 := by
    unfold maskSegFixed
    simp [hshp, hseg]
  have hfix2 : maskSegFixed (setSeg a 1) = 1 := by
    unfold maskSegFixed setSeg
    simp
  have hsame : ∀ x : Sem, legendPhase x (setSeg a 1).infilec (setSeg a 1).inpct e inp
      (maskSegFixed (setSeg a 1)) = legendPhase x a.infilec a.inpct e inp (maskSegFixed a) := by
    intro x
    rw [hfix, hfix2]
    rfl
  unfold icemapr
  rw [hsame sem]
  simp only [hfi, him, true_and, if_true, and_self]
  refine ⟨by simp [hshp, hseg], rfl, rfl, rfl, rfl, ?_⟩
  intro s hs
  simp only [withWarn_fields] at hs
  rcases legendPhase_maskSegUsed sem a.infilec a.inpct e inp (maskSegFixed a) with h2 | h2
  · rw [hs] at h2
    exact absurd h2 (by simp)
  · rw [hs] at h2
    injection h2 with h3
    exact h3.trans hfix

/-- Witness for C10: a concrete shapefile-mask invocation with segment 2 is
auto-corrected and matches the segment-1 invocation. -/
theorem shp_segment_autocorrected_witness :
    splitextExt "m.shp" = ".shp" ∧ (2 : Int) ≠ 1 ∧
    (icemapr semZero ⟨"in.pix", 1, "m.shp", 2, "freeze", "o.tif"⟩
      ⟨true, true, true, false, false, "t.pix", "p.txt"⟩ ⟨0, [], [], []⟩).segWarning = true :=
  ⟨by decide, by decide,
    (shp_segment_autocorrected semZero ⟨"in.pix", 1, "m.shp", 2, "freeze", "o.tif"⟩
      ⟨true, true, true, false, false, "t.pix", "p.txt"⟩ ⟨0, [], [], []⟩
      (by decide) (by decide) rfl rfl).1⟩
